/-
  Verification of the SF parcel reconciliation pipeline.

  Shallow embedding of the dataset-merge pipeline (merge_datasets.py,
  new_merge_with_left_joins) and of the mock HTTP endpoints
  (backend_example.py).  Dataframes are modelled as a list of column
  names plus rows of (key, value) entries; pandas/geopandas operations
  (rename, left merge with suffixes, spatial join, duplicate-column
  drop, projection, fillna) are translated operation by operation.
-/
import Mathlib

namespace SfParcel

/-- Python substring containment helper: is `needle` a leading segment of `hay`? -/
def charsPre : List Char → List Char → Bool
  | [], _ => true
  | _ :: _, [] => false
  | a :: s, b :: t => a == b && charsPre s t

/-- Python `needle in hay` on character lists. -/
def charsSub (needle : List Char) : List Char → Bool
  | [] => needle.isEmpty
  | c :: t => charsPre needle (c :: t) || charsSub needle t

/-- Python `kw in hay` on strings. -/
def strContains (hay kw : String) : Bool := charsSub kw.data hay.data

/-- Python `s.lower()`: per-character lowercase. -/
def lowerStr (s : String) : String := ⟨s.data.map Char.toLower⟩

/- ------------------------------------------------------------------
   backend_example.py : mock data and endpoints
   ------------------------------------------------------------------ -/

/-- One feature of `MOCK_PARCELS` in backend_example.py: flat properties plus
the polygon coordinate rings. -/
structure MockFeature where
  parcel_id : String
  zoning : String
  land_use : String
  area_sqft : ℚ
  neighborhood : String
  flood_risk : String
  coordinates : List (List (ℚ × ℚ))
deriving DecidableEq

/-- Mock parcel SF001 from backend_example.py. -/
def sf001 : MockFeature :=
  ⟨"SF001", "RH-2", "Residential", 2500, "Ingleside", "Low",
    [[(mkRat (-1224194) 10000, mkRat 377749 10000), (mkRat (-1224184) 10000, mkRat 377749 10000), (mkRat (-1224184) 10000, mkRat 377739 10000),
      (mkRat (-1224194) 10000, mkRat 377739 10000), (mkRat (-1224194) 10000, mkRat 377749 10000)]]⟩

/-- Mock parcel SF002 from backend_example.py. -/
def sf002 : MockFeature :=
  ⟨"SF002", "C-2", "Commercial", 5000, "Mission", "Medium",
    [[(mkRat (-1224204) 10000, mkRat 377759 10000), (mkRat (-1224194) 10000, mkRat 377759 10000), (mkRat (-1224194) 10000, mkRat 377749 10000),
      (mkRat (-1224204) 10000, mkRat 377749 10000), (mkRat (-1224204) 10000, mkRat 377759 10000)]]⟩

/-- Mock parcel SF003 from backend_example.py. -/
def sf003 : MockFeature :=
  ⟨"SF003", "RM-1", "Residential", 3000, "Ingleside", "High",
    [[(mkRat (-1224214) 10000, mkRat 377769 10000), (mkRat (-1224204) 10000, mkRat 377769 10000), (mkRat (-1224204) 10000, mkRat 377759 10000),
      (mkRat (-1224214) 10000, mkRat 377759 10000), (mkRat (-1224214) 10000, mkRat 377769 10000)]]⟩

/-- The `MOCK_PARCELS` list of backend_example.py. -/
def MOCK_PARCELS : List MockFeature := [sf001, sf002, sf003]

/-- `parcel['geometry']['coordinates'][0][0]`: first vertex of the first ring. -/
def firstVertex (p : MockFeature) : ℚ × ℚ := (p.coordinates.headD []).headD (0, 0)

/-- The bbox test of get_parcels_by_bbox:
`west <= lon <= east and south <= lat <= north` on the first vertex. -/
def inBbox (north south east west : ℚ) (p : MockFeature) : Bool :=
  decide (west ≤ (firstVertex p).1) && decide ((firstVertex p).1 ≤ east) &&
    decide (south ≤ (firstVertex p).2) && decide ((firstVertex p).2 ≤ north)

/-- get_parcels_by_bbox (backend_example.py lines 58-87): filter the mock
parcels by the bbox test on the first vertex; if nothing matched, substitute
`random.sample(MOCK_PARCELS, min(2, len(MOCK_PARCELS)))`.  The randomness is
abstracted as the `sample` parameter. -/
def get_parcels_by_bbox (sample : List MockFeature → Nat → List MockFeature)
    (north south east west : ℚ) : List MockFeature :=
  let filtered := MOCK_PARCELS.filter (inBbox north south east west)
  if filtered.isEmpty then sample MOCK_PARCELS (min 2 MOCK_PARCELS.length) else filtered

/-- One possible realization of `random.sample`: the draw that returns the
first `k` elements in order (any `k`-element draw is possible). -/
def sampleTake (l : List MockFeature) (k : Nat) : List MockFeature := l.take k

/-- Structured filters returned by the /llm_query endpoint; a field is `none`
exactly when the corresponding key is absent from the Python dict. -/
structure LlmFilters where
  zoning : Option String
  neighborhood : Option String
  flood_risk : Option String
deriving DecidableEq

/-- process_llm_query (backend_example.py lines 89-127): lowercase the prompt,
run the three keyword ladders, and substitute the fixed default dict when all
three ladders produced nothing. -/
def process_llm_query (prompt : String) : LlmFilters :=
  let p := lowerStr prompt
  let z : Option String :=
    if strContains p "rh-2" || strContains p "residential house" then some "RH-2"
    else if strContains p "rm-1" || strContains p "multi-unit" then some "RM-1"
    else if strContains p "c-2" || strContains p "commercial" then some "C-2"
    else none
  let n : Option String :=
    if strContains p "ingleside" then some "Ingleside"
    else if strContains p "mission" then some "Mission"
    else none
  let fr : Option String :=
    if strContains p "high" && strContains p "flood" then some "High"
    else if strContains p "low" && strContains p "flood" then some "Low"
    else if strContains p "medium" && strContains p "flood" then some "Medium"
    else none
  if z = none ∧ n = none ∧ fr = none then
    ⟨some "RH-2", some "Ingleside", some "Low"⟩
  else ⟨z, n, fr⟩

/- ------------------------------------------------------------------
   merge_datasets.py : dataframe model
   A GeoDataFrame is modelled as a list of column labels plus rows of
   (label, value) entries in column order.
   ------------------------------------------------------------------ -/

/-- A dataframe cell: null (NaN), a string, a number, or a geometry. -/
inductive Value (G : Type) where
  | null : Value G
  | str : String → Value G
  | num : ℚ → Value G
  | geom : G → Value G
deriving DecidableEq

/-- A dataframe row: (column label, value) entries in column order. -/
abbrev Row (G : Type) := List (String × Value G)

/-- A dataframe: column labels plus rows. -/
structure Frame (G : Type) where
  cols : List String
  rows : List (Row G)
deriving DecidableEq

variable {G : Type} [DecidableEq G]

/-- Value of the first entry labelled `n` in a row (pandas label lookup);
null when the label is absent. -/
def lookupVal (r : Row G) (n : String) : Value G :=
  match r.find? (fun p => p.1 == n) with
  | some p => p.2
  | none => Value.null

/-- Relabelling of one row under a label map. -/
def renameBy (f : String → String) (r : Row G) : Row G :=
  r.map (fun p => (f p.1, p.2))

/-- `df.rename(columns={a: b})`: relabel every occurrence of `a`. -/
def renameColFrame (fr : Frame G) (a b : String) : Frame G :=
  { cols := fr.cols.map (fun c => if c == a then b else c),
    rows := fr.rows.map (renameBy (fun c => if c == a then b else c)) }

/-- Remove every entry labelled `n` from a row. -/
def dropRowKey (r : Row G) (n : String) : Row G := r.filter (fun p => p.1 != n)

/-- `df.drop(columns=[n])`: remove every column labelled `n`. -/
def dropColFrame (fr : Frame G) (n : String) : Frame G :=
  { cols := fr.cols.filter (fun c => c != n),
    rows := fr.rows.map (fun r => dropRowKey r n) }

/-- Keep-first deduplication by a key, carrying the set of keys already seen
(pandas `df.loc[:, ~df.columns.duplicated()]`). -/
def dedupByAux {α : Type} (key : α → String) (seen : List String) : List α → List α
  | [] => []
  | p :: rest =>
    if key p ∈ seen then dedupByAux key seen rest
    else p :: dedupByAux key (key p :: seen) rest

/-- Keep the first occurrence of each key. -/
def dedupBy {α : Type} (key : α → String) (l : List α) : List α := dedupByAux key [] l

/-- `df[names]` column projection: for each requested label in order, the
first column carrying that label. -/
def projectRow (names : List String) (r : Row G) : Row G :=
  names.filterMap (fun n => (r.find? (fun p => p.1 == n)).map (fun p => (n, p.2)))

/- ------------------------------------------------------------------
   merge_datasets.py : schema resolution (lines 113-174)
   ------------------------------------------------------------------ -/

/-- Line 139: `'land' in col.lower() and 'use' in col.lower()`. -/
def landUseKeyword (c : String) : Bool :=
  strContains (lowerStr c) "land" && strContains (lowerStr c) "use"

/-- Line 159: `'zoning' in col.lower()`. -/
def zoningKeyword (c : String) : Bool := strContains (lowerStr c) "zoning"

/-- Lines 137-150: the column renamed to `land_use` — first keyword match over
all columns, else the first non-geometry column, else none. -/
def resolveLandUseCol (cols : List String) : Option String :=
  match cols.find? landUseKeyword with
  | some c => some c
  | none => (cols.filter (fun c => c != "geometry")).head?

/-- Lines 157-170: the column renamed to `zoning`. -/
def resolveZoningCol (cols : List String) : Option String :=
  match cols.find? zoningKeyword with
  | some c => some c
  | none => (cols.filter (fun c => c != "geometry")).head?

/-- Lines 115-117: rename `blklot` to `parcel_id` when that exact column
exists; otherwise the collection passes through unchanged. -/
def prepareParcelsId (fr : Frame G) : Frame G :=
  if "blklot" ∈ fr.cols then renameColFrame fr "blklot" "parcel_id" else fr

/-- Modelled from the claim C5 wording: identifier keyword test — the field
name contains "id", "lot" or "block" case-insensitively. -/
def claimIdKeyword (c : String) : Bool :=
  strContains (lowerStr c) "id" || strContains (lowerStr c) "lot" ||
    strContains (lowerStr c) "block"

/-- Modelled from the claim C5 wording: zoning keyword test — the field name
contains "zon" case-insensitively. -/
def claimZonKeyword (c : String) : Bool := strContains (lowerStr c) "zon"

/-- Modelled from the claim C5 wording: the identifier column is the first
non-geometry field containing an identifier keyword; no fallback. -/
def claimIdentifierCol (cols : List String) : Option String :=
  (cols.filter (fun c => c != "geometry")).find? claimIdKeyword

/-- Modelled from the claim C5 wording: first non-geometry field containing
"zon", else the first non-geometry field. -/
def claimZoningCol (cols : List String) : Option String :=
  match (cols.filter (fun c => c != "geometry")).find? claimZonKeyword with
  | some c => some c
  | none => (cols.filter (fun c => c != "geometry")).head?

/-- The amended zoning resolution: first non-geometry field whose name
contains "zoning" case-insensitively, else the first non-geometry field. -/
def amendedZoningCol (cols : List String) : Option String :=
  match (cols.filter (fun c => c != "geometry")).find? zoningKeyword with
  | some c => some c
  | none => (cols.filter (fun c => c != "geometry")).head?

/-- The amended land-use resolution: first non-geometry field whose name
contains both "land" and "use" case-insensitively, else the first
non-geometry field. -/
def amendedLandUseCol (cols : List String) : Option String :=
  match (cols.filter (fun c => c != "geometry")).find? landUseKeyword with
  | some c => some c
  | none => (cols.filter (fun c => c != "geometry")).head?

/- ------------------------------------------------------------------
   merge_datasets.py : area derivation (lines 118-133)
   ------------------------------------------------------------------ -/

/-- Geometry carried by a row, when present. -/
def geomOf (r : Row G) : Option G :=
  match lookupVal r "geometry" with
  | Value.geom g => some g
  | _ => none

/-- Line 128: `area * 111319.9 * 111319.9 * 0.3048 * 0.3048`
(constants written as exact rationals: 111319.9 = 1113199/10 and
0.3048 = 381/1250). -/
def approxArea (planar : G → ℚ) (g : G) : ℚ :=
  planar g * mkRat 1113199 10 * mkRat 1113199 10 * mkRat 381 1250 * mkRat 381 1250

/-- Cell of the approximate-area column for one row. -/
def approxAreaVal (planar : G → ℚ) (r : Row G) : Value G :=
  match geomOf r with
  | some g => Value.num (approxArea planar g)
  | none => Value.null

/-- Cell of the exact projected-area column for one row (lines 131-132;
`proj` abstracts the EPSG:3857 planar area of a geometry). -/
def exactAreaVal (proj : G → ℚ) (r : Row G) : Value G :=
  match geomOf r with
  | some g => Value.num (proj g)
  | none => Value.null

/-- `parcels['area_sqft'] = ...`: append the derived area column. -/
def addAreaCol (fr : Frame G) (v : Row G → Value G) : Frame G :=
  { cols := fr.cols ++ ["area_sqft"],
    rows := fr.rows.map (fun r => r ++ [("area_sqft", v r)]) }

/-- Lines 118-133: if an explicit `shape_area` column exists it is renamed to
`area_sqft`; else the area is computed, approximately when the row count
exceeds 10000 and exactly (in a projected CRS, abstracted by `proj`)
otherwise.  `planar` abstracts the planar degree-unit area of a geometry. -/
def deriveArea (planar proj : G → ℚ) (fr : Frame G) : Frame G :=
  if "shape_area" ∈ fr.cols then renameColFrame fr "shape_area" "area_sqft"
  else if fr.rows.length > 10000 then addAreaCol fr (approxAreaVal planar)
  else addAreaCol fr (exactAreaVal proj)

/- ------------------------------------------------------------------
   merge_datasets.py : attribute join (lines 175-192)
   ------------------------------------------------------------------ -/

/-- pandas key matching: null (NaN) never matches. -/
def keyMatch : Value G → Value G → Bool
  | Value.null, _ => false
  | _, Value.null => false
  | a, b => decide (a = b)

/-- pandas merge suffixing with suffixes=('', sfx): a right column colliding
with a left column gets `sfx` appended. -/
def suffixIf (lcols : List String) (sfx c : String) : String :=
  if c ∈ lcols then c ++ sfx else c

/-- Output rows the left merge produces for one left row: one row per
matching right row, or a single null-extended row when nothing matches. -/
def mergeContrib (l r : Frame G) (lkey rkey sfx : String) (lr : Row G) : List (Row G) :=
  let ms := r.rows.filter (fun rr => keyMatch (lookupVal lr lkey) (lookupVal rr rkey))
  if ms.isEmpty then
    [lr ++ r.cols.map (fun c => (suffixIf l.cols sfx c, Value.null))]
  else ms.map (fun rr => lr ++ renameBy (suffixIf l.cols sfx) rr)

/-- `l.merge(r, left_on=lkey, right_on=rkey, how='left', suffixes=('', sfx))`. -/
def mergeFrames (l r : Frame G) (lkey rkey sfx : String) : Frame G :=
  { cols := l.cols ++ r.cols.map (suffixIf l.cols sfx),
    rows := l.rows.flatMap (mergeContrib l r lkey rkey sfx) }

/-- Lines 177-192: merge parcels with land_use on parcel_id = mapblklot and
drop the right key column; skipped when either key column is missing. -/
def attrStage (parcels landUse : Frame G) : Frame G :=
  if "parcel_id" ∈ parcels.cols ∧ "mapblklot" ∈ landUse.cols then
    dropColFrame (mergeFrames parcels landUse "parcel_id" "mapblklot" "_land_use") "mapblklot"
  else parcels

/-- The single joined row an input parcel row contributes when the right key
is unique. -/
def attrRowOf (p lu : Frame G) (lr : Row G) : Row G :=
  dropRowKey ((mergeContrib p lu "parcel_id" "mapblklot" "_land_use" lr).headD []) "mapblklot"

/- ------------------------------------------------------------------
   merge_datasets.py : spatial join (lines 193-222)
   ------------------------------------------------------------------ -/

/-- The sjoin predicate applied to two rows: intersects on their geometries;
false when either geometry is missing. -/
def geomInter (inter : G → G → Bool) (lr rr : Row G) : Bool :=
  match geomOf lr, geomOf rr with
  | some g, some g2 => inter g g2
  | _, _ => false

/-- gpd.sjoin left-side relabelling: a left column colliding with a right
non-geometry column gets `_left` appended. -/
def sjoinLeftRename (rcols : List String) (c : String) : String :=
  if c ∈ rcols.filter (fun c2 => c2 != "geometry") then c ++ "_left" else c

/-- gpd.sjoin right-side columns: the right geometry is dropped and a right
column colliding with a left column gets `_right` appended. -/
def sjoinRightCols (lcols rcols : List String) : List String :=
  (rcols.filter (fun c => c != "geometry")).map
    (fun c => if c ∈ lcols then c ++ "_right" else c)

/-- Output rows `gpd.sjoin(l, r, how='left', predicate='intersects')` produces
for one left row: one row per intersecting right row (carrying its attributes
and its index as index_right), or a single null-extended row. -/
def sjoinContrib (l r : Frame G) (inter : G → G → Bool) (lr : Row G) : List (Row G) :=
  let lrow := renameBy (sjoinLeftRename r.cols) lr
  let ms := r.rows.enum.filter (fun q => geomInter inter lr q.2)
  if ms.isEmpty then
    [lrow ++ (r.cols.filter (fun c => c != "geometry")).map
        (fun c => (if c ∈ l.cols then c ++ "_right" else c, Value.null))
      ++ [("index_right", Value.null)]]
  else ms.map (fun q =>
    lrow ++ renameBy (fun c => if c ∈ l.cols then c ++ "_right" else c) (dropRowKey q.2 "geometry")
      ++ [("index_right", Value.num q.1)])

/-- `gpd.sjoin(l, r, how='left', predicate='intersects')`. -/
def sjoinFrames (l r : Frame G) (inter : G → G → Bool) : Frame G :=
  { cols := l.cols.map (sjoinLeftRename r.cols) ++ sjoinRightCols l.cols r.cols ++ ["index_right"],
    rows := l.rows.flatMap (sjoinContrib l r inter) }

/-- Lines 195-222: spatial join of the merged parcels with zoning, then drop
the join-artifact index column; skipped when zoning has no zoning column. -/
def spatialStage (m z : Frame G) (inter : G → G → Bool) : Frame G :=
  if "zoning" ∈ z.cols then dropColFrame (sjoinFrames m z inter) "index_right" else m

/-- The per-parcel output rows of the spatial stage (index_right dropped). -/
def spatialContrib (m z : Frame G) (inter : G → G → Bool) (lr : Row G) : List (Row G) :=
  (sjoinContrib m z inter lr).map (fun r => dropRowKey r "index_right")

/-- Number of zoning rows whose geometry intersects the row's geometry. -/
def intersCount (z : Frame G) (inter : G → G → Bool) (lr : Row G) : Nat :=
  (z.rows.filter (geomInter inter lr)).length

/-- The stage output row produced for a parcel row `lr` and one matching
(indexed) zoning row `q`. -/
def spatialMatchRow (m z : Frame G) (lr : Row G) (q : Nat × Row G) : Row G :=
  dropRowKey
    (renameBy (sjoinLeftRename z.cols) lr ++
      renameBy (fun c => if c ∈ m.cols then c ++ "_right" else c) (dropRowKey q.2 "geometry") ++
      [("index_right", Value.num q.1)])
    "index_right"

/- ------------------------------------------------------------------
   merge_datasets.py : schema finalizer (lines 223-237)
   ------------------------------------------------------------------ -/

/-- Line 228: the canonical output schema. -/
def requiredColumns : List String :=
  ["parcel_id", "zoning", "land_use", "area_sqft", "geometry"]

/-- Lines 228-229: the canonical columns present after duplicate-drop. -/
def availableColumns (cols : List String) : List String :=
  requiredColumns.filter (fun c => decide (c ∈ dedupBy id cols))

/-- Lines 234-237: fillna('Unknown') on the zoning and land_use columns. -/
def fillVal (n : String) (v : Value G) : Value G :=
  if (n == "zoning" || n == "land_use") && decide (v = Value.null) then
    Value.str "Unknown"
  else v

/-- Sentinel fill applied to a whole row. -/
def fillRow (r : Row G) : Row G := r.map (fun p => (p.1, fillVal p.1 p.2))

/-- The finalizer's action on one row: duplicate-label drop (keep first),
projection to the available canonical columns, sentinel fill. -/
def finalizeRow (cols : List String) (r : Row G) : Row G :=
  fillRow (projectRow (availableColumns cols) (dedupBy Prod.fst r))

/-- Lines 223-237: the Schema Finalizer. -/
def finalizeFrame (fr : Frame G) : Frame G :=
  { cols := availableColumns fr.cols, rows := fr.rows.map (finalizeRow fr.cols) }

/-- The full pipeline after dataset preparation: attribute join, spatial
join, finalizer. -/
def pipelineFrame (p lu z : Frame G) (inter : G → G → Bool) : Frame G :=
  finalizeFrame (spatialStage (attrStage p lu) z inter)

/-- The final output rows deriving from one input parcel row. -/
def perParcelRows (p lu z : Frame G) (inter : G → G → Bool) (lr : Row G) : List (Row G) :=
  let a : List (Row G) :=
    if "parcel_id" ∈ p.cols ∧ "mapblklot" ∈ lu.cols then
      (mergeContrib p lu "parcel_id" "mapblklot" "_land_use" lr).map
        (fun r => dropRowKey r "mapblklot")
    else [lr]
  let b : Row G → List (Row G) := fun r =>
    if "zoning" ∈ z.cols then spatialContrib (attrStage p lu) z inter r else [r]
  (a.flatMap b).map (finalizeRow (spatialStage (attrStage p lu) z inter).cols)

/- ------------------------------------------------------------------
   Concrete frames used as counterexamples and witnesses
   ------------------------------------------------------------------ -/

/-- A joined result lacking the area_sqft column. -/
def joinedNoArea : Frame Nat :=
  { cols := ["parcel_id", "zoning", "land_use", "geometry"],
    rows := [[("parcel_id", Value.str "001"), ("zoning", Value.null),
              ("land_use", Value.str "R"), ("geometry", Value.geom 7)]] }

/-- A parcel collection with exactly 10000 rows and no explicit area column. -/
def tenKFrame : Frame Nat :=
  { cols := ["geometry"], rows := List.replicate 10000 [("geometry", Value.geom 0)] }

/-- A two-parcel collection used to exercise the joins. -/
def wParcels : Frame Nat :=
  { cols := ["parcel_id", "geometry"],
    rows := [[("parcel_id", Value.str "001"), ("geometry", Value.geom 1)],
             [("parcel_id", Value.str "002"), ("geometry", Value.geom 2)]] }

/-- A land-use collection with one record keyed 001. -/
def wLandUse : Frame Nat :=
  { cols := ["land_use", "mapblklot", "geometry"],
    rows := [[("land_use", Value.str "Res"), ("mapblklot", Value.str "001"),
              ("geometry", Value.geom 9)]] }

/-- A zoning collection with two polygons, both intersecting geometry 1. -/
def wZoning : Frame Nat :=
  { cols := ["zoning", "geometry"],
    rows := [[("zoning", Value.str "A"), ("geometry", Value.geom 1)],
             [("zoning", Value.str "B"), ("geometry", Value.geom 1)]] }

/-- C9 counterexample: at bounds north=1, south=0, east=1, west=0 no mock
parcel's first vertex lies in the box, yet the endpoint (under one possible
realization of random.sample) returns two parcels, including sf001 which is
outside the bounds — so the response is not exactly the in-bounds features. -/
theorem bbox_counterexample :
    MOCK_PARCELS.filter (inBbox 1 0 1 0) = [] ∧
    get_parcels_by_bbox sampleTake 1 0 1 0 = [sf001, sf002] ∧
    inBbox 1 0 1 0 sf001 = false := by
  refine ⟨by decide, ?_, by decide⟩
  show (if (MOCK_PARCELS.filter (inBbox 1 0 1 0)).isEmpty then
      sampleTake MOCK_PARCELS (min 2 MOCK_PARCELS.length)
    else MOCK_PARCELS.filter (inBbox 1 0 1 0)) = [sf001, sf002]
  decide

/-- C9 (amended): when at least one mock parcel's first vertex lies in the
bounds, the response is exactly the set of in-bounds features (membership is
equivalent to the bounds test); when none does, the response is instead a
random sample of min(2, N) mock parcels. -/
theorem bbox_response_characterization
    (sample : List MockFeature → Nat → List MockFeature) (north south east west : ℚ) :
    (MOCK_PARCELS.filter (inBbox north south east west) ≠ [] →
      get_parcels_by_bbox sample north south east west =
        MOCK_PARCELS.filter (inBbox north south east west) ∧
      ∀ p, p ∈ get_parcels_by_bbox sample north south east west ↔
        (p ∈ MOCK_PARCELS ∧ inBbox north south east west p = true)) ∧
    (MOCK_PARCELS.filter (inBbox north south east west) = [] →
      get_parcels_by_bbox sample north south east west =
        sample MOCK_PARCELS (min 2 MOCK_PARCELS.length)) := by
  constructor
  · intro h
    have hne : (MOCK_PARCELS.filter (inBbox north south east west)).isEmpty = false := by
      cases hc : (MOCK_PARCELS.filter (inBbox north south east west)).isEmpty
      · rfl
      · exact absurd (List.isEmpty_iff.mp hc) h
    have hres : get_parcels_by_bbox sample north south east west =
        MOCK_PARCELS.filter (inBbox north south east west) := by
      unfold get_parcels_by_bbox
      simp [hne]
    refine ⟨hres, ?_⟩
    intro p
    rw [hres]
    simp [List.mem_filter]
  · intro h
    unfold get_parcels_by_bbox
    simp [h]

/-- C9 witness: at the default bounds all three mock parcels are in the box,
and the response is exactly the filtered list. -/
theorem bbox_response_witness :
    MOCK_PARCELS.filter (inBbox (mkRat 378 10) (mkRat 377 10) (mkRat (-1224) 10) (mkRat (-1225) 10)) ≠ [] ∧
    get_parcels_by_bbox sampleTake (mkRat 378 10) (mkRat 377 10) (mkRat (-1224) 10) (mkRat (-1225) 10) =
      MOCK_PARCELS.filter (inBbox (mkRat 378 10) (mkRat 377 10) (mkRat (-1224) 10) (mkRat (-1225) 10)) :=
  ⟨by decide,
   ((bbox_response_characterization sampleTake (mkRat 378 10) (mkRat 377 10) (mkRat (-1224) 10) (mkRat (-1225) 10)).1
      (by decide)).1⟩

/-- C10: a prompt in which no zoning, neighborhood or flood-risk keyword is
recognized yields the fixed default filter mapping
zoning="RH-2", neighborhood="Ingleside", flood_risk="Low". -/
theorem llm_query_default (prompt : String)
    (h1 : strContains (lowerStr prompt) "rh-2" = false)
    (h2 : strContains (lowerStr prompt) "residential house" = false)
    (h3 : strContains (lowerStr prompt) "rm-1" = false)
    (h4 : strContains (lowerStr prompt) "multi-unit" = false)
    (h5 : strContains (lowerStr prompt) "c-2" = false)
    (h6 : strContains (lowerStr prompt) "commercial" = false)
    (h7 : strContains (lowerStr prompt) "ingleside" = false)
    (h8 : strContains (lowerStr prompt) "mission" = false)
    (h9 : (strContains (lowerStr prompt) "high" && strContains (lowerStr prompt) "flood") = false)
    (h10 : (strContains (lowerStr prompt) "low" && strContains (lowerStr prompt) "flood") = false)
    (h11 : (strContains (lowerStr prompt) "medium" && strContains (lowerStr prompt) "flood") = false) :
    process_llm_query prompt = ⟨some "RH-2", some "Ingleside", some "Low"⟩ := by
  unfold process_llm_query
  simp [h1, h2, h3, h4, h5, h6, h7, h8, h9, h10, h11]

/-- C10 witness: the prompt "hello" triggers no keyword and gets the default
filters. -/
theorem llm_query_default_witness :
    process_llm_query "hello" = ⟨some "RH-2", some "Ingleside", some "Low"⟩ :=
  llm_query_default "hello" (by decide) (by decide) (by decide) (by decide)
    (by decide) (by decide) (by decide) (by decide) (by decide) (by decide) (by decide)

/- ------------------------------------------------------------------
   General helper lemmas
   ------------------------------------------------------------------ -/

theorem dedupByAux_sublist {α : Type} (key : α → String) (seen : List String)
    (l : List α) : (dedupByAux key seen l).Sublist l := by
  induction l generalizing seen with
  | nil => simp [dedupByAux]
  | cons p rest ih =>
    rw [dedupByAux]
    by_cases h : key p ∈ seen
    · rw [if_pos h]
      exact (ih seen).cons p
    · rw [if_neg h]
      exact (ih _).cons₂ p

theorem dedupBy_sublist {α : Type} (key : α → String) (l : List α) :
    (dedupBy key l).Sublist l := dedupByAux_sublist key [] l

theorem mem_dedupIdAux (l : List String) : ∀ (seen : List String) (c : String),
    c ∈ l → c ∉ seen → c ∈ dedupByAux id seen l := by
  induction l with
  | nil => intro seen c hc _; cases hc
  | cons a rest ih =>
    intro seen c hc hs
    rw [dedupByAux]
    by_cases h : id a ∈ seen
    · rw [if_pos h]
      rcases List.mem_cons.mp hc with rfl | hmem
      · exact absurd h hs
      · exact ih seen c hmem hs
    · rw [if_neg h]
      rcases List.mem_cons.mp hc with rfl | hmem
      · exact List.mem_cons_self _ _
      · by_cases hca : c = a
        · subst hca; exact List.mem_cons_self _ _
        · refine List.mem_cons_of_mem _ (ih _ c hmem ?_)
          intro hmem2
          rcases List.mem_cons.mp hmem2 with h2 | h2
          · exact hca h2
          · exact hs h2

theorem mem_dedupId (l : List String) (c : String) (hc : c ∈ l) :
    c ∈ dedupBy id l := mem_dedupIdAux l [] c hc (by simp)

theorem find?_restrict {α : Type} (p q : α → Bool) (l : List α)
    (h : ∀ a, q a = false → p a = false) : (l.filter q).find? p = l.find? p := by
  induction l with
  | nil => rfl
  | cons a rest ih =>
    by_cases hq : q a = true
    · rw [List.filter_cons_of_pos hq]
      by_cases hp : p a = true
      · rw [List.find?_cons_of_pos _ hp, List.find?_cons_of_pos _ hp]
      · have hp2 : ¬ p a = true := hp
        rw [List.find?_cons_of_neg _ hp2, List.find?_cons_of_neg _ hp2, ih]
    · have hq2 : q a = false := by
        cases hqa : q a
        · rfl
        · exact absurd hqa hq
      rw [List.filter_cons_of_neg (by simp [hq2])]
      have hp2 : ¬ p a = true := by simp [h a hq2]
      rw [List.find?_cons_of_neg _ hp2, ih]

theorem keys_fillRow (r : Row G) : (fillRow r).map Prod.fst = r.map Prod.fst := by
  rw [fillRow, List.map_map]
  exact List.map_congr_left (fun p _ => rfl)

theorem keys_projectRow_subset (names : List String) (r : Row G) :
    ∀ a ∈ (projectRow names r).map Prod.fst, a ∈ names := by
  induction names with
  | nil => intro a ha; simp [projectRow] at ha
  | cons n ns ih =>
    intro a ha
    rw [projectRow, List.filterMap_cons] at ha
    cases hf : r.find? (fun p => p.1 == n) with
    | none =>
      rw [hf] at ha
      simp only [Option.map_none'] at ha
      exact List.mem_cons_of_mem _ (ih a ha)
    | some p =>
      rw [hf] at ha
      simp only [Option.map_some', List.map_cons] at ha
      rcases List.mem_cons.mp ha with rfl | h2
      · exact List.mem_cons_self _ _
      · exact List.mem_cons_of_mem _ (ih a h2)

theorem keys_finalizeRow_subset (cols : List String) (r : Row G) :
    ∀ a ∈ (finalizeRow cols r).map Prod.fst, a ∈ availableColumns cols := by
  intro a ha
  rw [finalizeRow, keys_fillRow] at ha
  exact keys_projectRow_subset _ _ a ha

/- ------------------------------------------------------------------
   Claim theorems: C3 - C6
   ------------------------------------------------------------------ -/

/-- C6: when either attribute-join key column is missing the attribute-join
stage is skipped and its output is the parcel collection itself; when the
zoning collection lacks a zoning column the spatial-join stage is skipped and
its output is its input. -/
theorem join_key_missing_degrades (p lu m z : Frame G) (inter : G → G → Bool) :
    (("parcel_id" ∉ p.cols ∨ "mapblklot" ∉ lu.cols) → attrStage p lu = p) ∧
    ("zoning" ∉ z.cols → spatialStage m z inter = m) := by
  constructor
  · intro h
    rw [attrStage, if_neg]
    rintro ⟨h1, h2⟩
    rcases h with h | h
    · exact h h1
    · exact h h2
  · intro h
    rw [spatialStage, if_neg h]

/-- C6 witness: skipping both stages on concrete key-deficient frames. -/
theorem join_key_missing_witness :
    attrStage (G := Nat) ⟨["geometry"], []⟩ ⟨["land_use"], []⟩ = ⟨["geometry"], []⟩ ∧
    spatialStage (G := Nat) ⟨["parcel_id"], []⟩ ⟨["geometry"], []⟩ (fun _ _ => true) =
      ⟨["parcel_id"], []⟩ :=
  ⟨(join_key_missing_degrades ⟨["geometry"], []⟩ ⟨["land_use"], []⟩ ⟨["parcel_id"], []⟩
      ⟨["geometry"], []⟩ (fun _ _ => true)).1 (Or.inl (by decide)),
   (join_key_missing_degrades ⟨["geometry"], []⟩ ⟨["land_use"], []⟩ ⟨["parcel_id"], []⟩
      ⟨["geometry"], []⟩ (fun _ _ => true)).2 (by decide)⟩

/-- C5 counterexample: the code resolves the zoning column of
["district", "zone", "geometry"] to the fallback "district" (no name contains
"zoning"), while the claim's "zon" keyword selects "zone"; and the code leaves
a parcel frame with column "lot_number" unrenamed (no exact "blklot" column),
while the claim's identifier scan selects "lot_number". -/
theorem schema_resolver_counterexample :
    resolveZoningCol ["district", "zone", "geometry"] = some "district" ∧
    claimZoningCol ["district", "zone", "geometry"] = some "zone" ∧
    prepareParcelsId (G := Nat) ⟨["lot_number", "geometry"], []⟩ =
      ⟨["lot_number", "geometry"], []⟩ ∧
    claimIdentifierCol ["lot_number", "geometry"] = some "lot_number" := by
  refine ⟨by decide, by decide, ?_, by decide⟩
  rw [prepareParcelsId, if_neg (by decide)]

/-- C5 (amended): the land-use role takes the first field containing both
"land" and "use" (equivalently scanning only non-geometry fields) with the
first non-geometry field as fallback; the zoning role does the same with
keyword "zoning" (not "zon"); the identifier role is resolved by the exact
column name "blklot" only, renamed to parcel_id, with no fallback. -/
theorem schema_resolver_characterization :
    (∀ cols : List String, resolveZoningCol cols = amendedZoningCol cols) ∧
    (∀ cols : List String, resolveLandUseCol cols = amendedLandUseCol cols) ∧
    (∀ fr : Frame G, (prepareParcelsId fr).cols =
      fr.cols.map (fun c => if c == "blklot" then "parcel_id" else c)) := by
  refine ⟨?_, ?_, ?_⟩
  · intro cols
    rw [resolveZoningCol, amendedZoningCol,
      find?_restrict zoningKeyword (fun c => c != "geometry") cols ?_]
    intro a ha
    have h2 : a = "geometry" := by simpa using ha
    subst h2
    decide
  · intro cols
    rw [resolveLandUseCol, amendedLandUseCol,
      find?_restrict landUseKeyword (fun c => c != "geometry") cols ?_]
    intro a ha
    have h2 : a = "geometry" := by simpa using ha
    subst h2
    decide
  · intro fr
    rw [prepareParcelsId]
    by_cases h : "blklot" ∈ fr.cols
    · rw [if_pos h]; rfl
    · rw [if_neg h]
      have hmap : ∀ l : List String, "blklot" ∉ l →
          List.map (fun c => if c == "blklot" then "parcel_id" else c) l = l := by
        intro l
        induction l with
        | nil => intro _; rfl
        | cons a t ih =>
          intro hl
          have ha : ¬ a == "blklot" := by
            simp only [beq_iff_eq]
            exact fun he => hl (he ▸ List.mem_cons_self a t)
          rw [List.map_cons, ih (fun hm => hl (List.mem_cons_of_mem a hm))]
          simp [ha]
      exact (hmap fr.cols h).symm

/-- C4 counterexample: a 10000-row collection with no explicit area column
takes the exact projected-area branch (the code's test is strictly greater
than 10000), and the exact value differs from the approximate-formula value —
refuting "at or above 10,000 rows gets the approximate formula". -/
theorem area_threshold_counterexample :
    tenKFrame.rows.length = 10000 ∧
    deriveArea (fun _ => 1) (fun _ => 2) tenKFrame =
      addAreaCol tenKFrame (exactAreaVal (fun _ => 2)) ∧
    exactAreaVal (fun _ : Nat => 2) [("geometry", Value.geom 0)] = Value.num 2 ∧
    approxAreaVal (fun _ : Nat => 1) [("geometry", Value.geom 0)] =
      Value.num (approxArea (fun _ => 1) 0) ∧
    approxArea (fun _ : Nat => 1) 0 ≠ 2 := by
  have hlen : tenKFrame.rows.length = 10000 := by
    show (List.replicate 10000 ([("geometry", Value.geom 0)] : Row Nat)).length = 10000
    exact List.length_replicate _ _
  refine ⟨hlen, ?_, rfl, rfl, ?_⟩
  · rw [deriveArea, if_neg (by decide), if_neg (by rw [hlen]; omega)]
  · rw [approxArea]
    norm_num [Rat.mkRat_eq_div]

/-- C4 (amended): with an explicit shape_area column the column is copied
(renamed) and no computation runs; without one, a collection with strictly
more than 10,000 rows gets the approximate degree-unit formula with constants
111319.9² · 0.3048², and a collection with at most 10,000 rows (including
exactly 10,000) gets the exact projected-CRS computation. -/
theorem derive_area_branches (planar proj : G → ℚ) (fr : Frame G) :
    ("shape_area" ∈ fr.cols →
      deriveArea planar proj fr = renameColFrame fr "shape_area" "area_sqft") ∧
    ("shape_area" ∉ fr.cols → fr.rows.length > 10000 →
      deriveArea planar proj fr = addAreaCol fr (approxAreaVal planar)) ∧
    ("shape_area" ∉ fr.cols → fr.rows.length ≤ 10000 →
      deriveArea planar proj fr = addAreaCol fr (exactAreaVal proj)) := by
  refine ⟨fun h => ?_, fun h h2 => ?_, fun h h2 => ?_⟩
  · rw [deriveArea, if_pos h]
  · rw [deriveArea, if_neg h, if_pos h2]
  · rw [deriveArea, if_neg h, if_neg (by omega)]

/-- C4 witness: all three branches exercised on concrete frames. -/
theorem derive_area_branches_witness :
    deriveArea (G := Nat) (fun _ => 1) (fun _ => 2)
        ⟨["shape_area", "geometry"], [[("shape_area", Value.num 5)]]⟩ =
      renameColFrame ⟨["shape_area", "geometry"], [[("shape_area", Value.num 5)]]⟩
        "shape_area" "area_sqft" ∧
    deriveArea (G := Nat) (fun _ => 1) (fun _ => 2) ⟨["geometry"], List.replicate 10001 []⟩ =
      addAreaCol ⟨["geometry"], List.replicate 10001 []⟩ (approxAreaVal (fun _ => 1)) ∧
    deriveArea (G := Nat) (fun _ => 1) (fun _ => 2) ⟨["geometry"], [[("geometry", Value.geom 3)]]⟩ =
      addAreaCol ⟨["geometry"], [[("geometry", Value.geom 3)]]⟩ (exactAreaVal (fun _ => 2)) :=
  ⟨(derive_area_branches _ _ _).1 (by decide),
   (derive_area_branches _ _ _).2.1 (by decide)
     (by show (List.replicate 10001 ([] : Row Nat)).length > 10000
         rw [List.length_replicate]
         omega),
   (derive_area_branches _ _ _).2.2 (by decide) (by decide)⟩

/-- C3 counterexample: on a joined result lacking area_sqft the finalizer
completes normally (no error) and produces an output collection without
area_sqft — it does not fail the run. -/
theorem finalizer_no_error_counterexample :
    (finalizeFrame joinedNoArea).cols = ["parcel_id", "zoning", "land_use", "geometry"] ∧
    "area_sqft" ∉ (finalizeFrame joinedNoArea).cols ∧
    (finalizeFrame joinedNoArea).rows =
      [[("parcel_id", Value.str "001"), ("zoning", Value.str "Unknown"),
        ("land_use", Value.str "R"), ("geometry", Value.geom 7)]] := by
  refine ⟨by decide, by decide, by decide⟩

/-- C3 (amended): when area_sqft is absent from the joined result, the
finalizer reports it as missing and produces output without that column; it
never zero-fills or fabricates area_sqft (but it does not raise an error). -/
theorem finalizer_never_fabricates_area (fr : Frame G) (h : "area_sqft" ∉ fr.cols) :
    "area_sqft" ∉ (finalizeFrame fr).cols ∧
    ∀ r ∈ (finalizeFrame fr).rows, "area_sqft" ∉ r.map Prod.fst := by
  have hac : "area_sqft" ∉ availableColumns fr.cols := by
    intro hmem
    have h2 := List.mem_filter.mp hmem
    have h3 : "area_sqft" ∈ dedupBy id fr.cols := by simpa using h2.2
    exact h ((dedupBy_sublist id fr.cols).subset h3)
  refine ⟨hac, ?_⟩
  intro r hr
  simp only [finalizeFrame, List.mem_map] at hr
  obtain ⟨r0, _, rfl⟩ := hr
  intro hk
  exact hac (keys_finalizeRow_subset fr.cols r0 "area_sqft" hk)

/-- C3 witness: the amended statement at the concrete area-less frame. -/
theorem finalizer_never_fabricates_witness :
    "area_sqft" ∉ (finalizeFrame joinedNoArea).cols :=
  (finalizer_never_fabricates_area joinedNoArea (by decide)).1

/- ------------------------------------------------------------------
   Lookup and join helper lemmas
   ------------------------------------------------------------------ -/

theorem keyMatch_eq {a b : Value G} (h : keyMatch a b = true) : a = b := by
  cases a <;> cases b <;> simp [keyMatch] at h <;> simp [h]

theorem filter_length_le_one {α β : Type} (l : List α) (f : α → β)
    (hnd : (l.map f).Nodup) (pb : α → Bool) (v : β) (hv : ∀ x, pb x = true → f x = v) :
    (l.filter pb).length ≤ 1 := by
  induction l with
  | nil => simp
  | cons a rest ih =>
    rw [List.map_cons, List.nodup_cons] at hnd
    by_cases hp : pb a = true
    · rw [List.filter_cons_of_pos hp]
      have hrest : rest.filter pb = [] := by
        rw [List.filter_eq_nil_iff]
        intro x hx hpx
        exact hnd.1 (List.mem_map.mpr ⟨x, hx, (hv x hpx).trans (hv a hp).symm⟩)
      rw [hrest]
      simp
    · rw [List.filter_cons_of_neg hp]
      exact ih hnd.2

theorem eq_singleton_of_length_one {α : Type} (l : List α) (d : α) (h : l.length = 1) :
    l = [l.headD d] := by
  cases l with
  | nil => simp at h
  | cons a t =>
    cases t with
    | nil => rfl
    | cons b t2 => simp [List.length_cons] at h

theorem flatMap_eq_map_of_length_one {α β : Type} (l : List α) (f : α → List β) (d : β)
    (h : ∀ x ∈ l, (f x).length = 1) :
    l.flatMap f = l.map (fun x => (f x).headD d) := by
  induction l with
  | nil => rfl
  | cons a t ih =>
    rw [List.flatMap_cons, List.map_cons,
      ih (fun x hx => h x (List.mem_cons_of_mem a hx))]
    obtain ⟨b, hb⟩ : ∃ b, f a = [b] := by
      have hlen := h a (List.mem_cons_self a t)
      cases hfa : f a with
      | nil => rw [hfa] at hlen; simp at hlen
      | cons x t2 =>
        cases t2 with
        | nil => exact ⟨x, rfl⟩
        | cons y t3 => rw [hfa] at hlen; simp [List.length_cons] at hlen
    rw [hb]
    rfl

theorem lookupVal_cons_eq (q : String × Value G) (t : Row G) (n : String)
    (h : q.1 == n) : lookupVal (q :: t) n = q.2 := by
  simp [lookupVal, List.find?, h]

theorem lookupVal_cons_ne (q : String × Value G) (t : Row G) (n : String)
    (h : ¬ q.1 == n) : lookupVal (q :: t) n = lookupVal t n := by
  simp only [eq_iff_iff, iff_false, Bool.not_eq_true] at h
  simp [lookupVal, List.find?, h]

theorem lookupVal_all_null (u : Row G) (n : String) (h : ∀ q ∈ u, q.2 = Value.null) :
    lookupVal u n = Value.null := by
  rw [lookupVal]
  cases hf : u.find? (fun p => p.1 == n) with
  | none => rfl
  | some q => exact h q (List.mem_of_find?_eq_some hf)

theorem lookupVal_append_left_none (s u : Row G) (n : String)
    (h : n ∉ s.map Prod.fst) : lookupVal (s ++ u) n = lookupVal u n := by
  induction s with
  | nil => rfl
  | cons q t ih =>
    have hq : ¬ q.1 == n := by
      simp only [beq_iff_eq]
      intro he
      exact h (he ▸ List.mem_map_of_mem Prod.fst (List.mem_cons_self q t))
    rw [List.cons_append, lookupVal_cons_ne _ _ _ hq]
    exact ih (fun hm => h (List.map_cons Prod.fst q t ▸ List.mem_cons_of_mem _ hm))

theorem lookupVal_not_mem (u : Row G) (n : String) (h : n ∉ u.map Prod.fst) :
    lookupVal u n = Value.null := by
  rw [lookupVal]
  have hf : u.find? (fun p => p.1 == n) = none := by
    rw [List.find?_eq_none]
    intro x hx
    simp only [beq_iff_eq]
    exact fun he => h (he ▸ List.mem_map_of_mem Prod.fst hx)
  rw [hf]

theorem lookupVal_append_right_none (s u : Row G) (n : String)
    (h : n ∉ u.map Prod.fst) : lookupVal (s ++ u) n = lookupVal s n := by
  induction s with
  | nil =>
    rw [List.nil_append, lookupVal_not_mem u n h]
    rfl
  | cons q t ih =>
    by_cases hq : q.1 == n
    · rw [List.cons_append, lookupVal_cons_eq _ _ _ hq, lookupVal_cons_eq _ _ _ hq]
    · rw [List.cons_append, lookupVal_cons_ne _ _ _ hq, lookupVal_cons_ne _ _ _ hq]
      exact ih

theorem lookupVal_filter_preserve (r : Row G) (keep : String × Value G → Bool) (n : String)
    (h : ∀ q : String × Value G, q.1 = n → keep q = true) :
    lookupVal (r.filter keep) n = lookupVal r n := by
  induction r with
  | nil => rfl
  | cons q t ih =>
    by_cases hq : q.1 == n
    · have hq2 : q.1 = n := by simpa using hq
      rw [List.filter_cons_of_pos (h q hq2), lookupVal_cons_eq _ _ _ hq,
        lookupVal_cons_eq _ _ _ hq]
    · by_cases hk : keep q = true
      · rw [List.filter_cons_of_pos hk, lookupVal_cons_ne _ _ _ hq,
          lookupVal_cons_ne _ _ _ hq]
        exact ih
      · rw [List.filter_cons_of_neg hk, lookupVal_cons_ne _ _ _ hq]
        exact ih

theorem mergeContrib_length_one (p lu : Frame G) (lr : Row G)
    (huniq : (lu.rows.map (fun rr => lookupVal rr "mapblklot")).Nodup) :
    (mergeContrib p lu "parcel_id" "mapblklot" "_land_use" lr).length = 1 := by
  simp only [mergeContrib]
  set ms := lu.rows.filter
    (fun rr => keyMatch (lookupVal lr "parcel_id") (lookupVal rr "mapblklot")) with hms
  have hle : ms.length ≤ 1 := by
    refine filter_length_le_one lu.rows (fun rr => lookupVal rr "mapblklot") huniq _
      (lookupVal lr "parcel_id") ?_
    intro x hx
    exact (keyMatch_eq hx).symm
  by_cases he : ms.isEmpty
  · rw [if_pos he]
    rfl
  · rw [if_neg he, List.length_map]
    have hpos : 0 < ms.length := by
      cases hm : ms with
      | nil => rw [hm] at he; exact absurd rfl he
      | cons a t => simp
    omega

/- ------------------------------------------------------------------
   Claim theorem: C1
   ------------------------------------------------------------------ -/

/-- C1: with both key columns present and unique right-side join keys, the
attribute-join stage yields exactly one output row per input parcel (so
exactly N output rows), and a parcel with no matching land-use key gets a
null land_use value. -/
theorem attr_join_row_preservation (p lu : Frame G)
    (hp : "parcel_id" ∈ p.cols) (hl : "mapblklot" ∈ lu.cols)
    (huniq : (lu.rows.map (fun rr => lookupVal rr "mapblklot")).Nodup) :
    (attrStage p lu).rows.length = p.rows.length ∧
    (attrStage p lu).rows = p.rows.map (attrRowOf p lu) ∧
    ∀ lr ∈ p.rows, "land_use" ∉ lr.map Prod.fst →
      (∀ rr ∈ lu.rows,
        keyMatch (lookupVal lr "parcel_id") (lookupVal rr "mapblklot") = false) →
      lookupVal (attrRowOf p lu lr) "land_use" = Value.null := by
  have hstage : attrStage p lu =
      dropColFrame (mergeFrames p lu "parcel_id" "mapblklot" "_land_use") "mapblklot" := by
    rw [attrStage, if_pos ⟨hp, hl⟩]
  have hrows : (attrStage p lu).rows = p.rows.map (attrRowOf p lu) := by
    rw [hstage]
    show ((p.rows.flatMap (mergeContrib p lu "parcel_id" "mapblklot" "_land_use")).map
        (fun r => dropRowKey r "mapblklot")) = _
    rw [flatMap_eq_map_of_length_one _ _ []
      (fun x _ => mergeContrib_length_one p lu x huniq), List.map_map]
    rfl
  refine ⟨by rw [hrows, List.length_map], hrows, ?_⟩
  intro lr _ hlu hnm
  have hms : lu.rows.filter
      (fun rr => keyMatch (lookupVal lr "parcel_id") (lookupVal rr "mapblklot")) = [] := by
    rw [List.filter_eq_nil_iff]
    intro rr hrr
    simp [hnm rr hrr]
  have hcontrib : mergeContrib p lu "parcel_id" "mapblklot" "_land_use" lr =
      [lr ++ lu.cols.map (fun c => (suffixIf p.cols "_land_use" c, Value.null))] := by
    simp only [mergeContrib, hms, List.isEmpty_nil, if_true]
  rw [attrRowOf, hcontrib]
  show lookupVal (dropRowKey
    (lr ++ lu.cols.map (fun c => (suffixIf p.cols "_land_use" c, Value.null)))
    "mapblklot") "land_use" = Value.null
  rw [dropRowKey, List.filter_append, lookupVal_append_left_none]
  · apply lookupVal_all_null
    intro q hq
    obtain ⟨c, _, rfl⟩ := List.mem_map.mp (List.mem_filter.mp hq).1
    rfl
  · intro hmem
    obtain ⟨q, hq, hq2⟩ := List.mem_map.mp hmem
    exact hlu (hq2 ▸ List.mem_map_of_mem Prod.fst (List.mem_filter.mp hq).1)

/-- C1 witness: a two-parcel collection against a one-record land-use
collection preserves both rows, and the unmatched parcel 002 gets null
land_use. -/
theorem attr_join_witness :
    (attrStage wParcels wLandUse).rows.length = wParcels.rows.length ∧
    lookupVal (attrRowOf wParcels wLandUse
      [("parcel_id", Value.str "002"), ("geometry", Value.geom 2)]) "land_use" =
      Value.null :=
  ⟨(attr_join_row_preservation wParcels wLandUse (by decide) (by decide) (by decide)).1,
   (attr_join_row_preservation wParcels wLandUse (by decide) (by decide) (by decide)).2.2
     [("parcel_id", Value.str "002"), ("geometry", Value.geom 2)]
     (by decide) (by decide) (by decide)⟩

/- ------------------------------------------------------------------
   Spatial-join helper lemmas
   ------------------------------------------------------------------ -/

theorem map_flatMap_comm {α β γ : Type} (l : List α) (f : α → List β) (g : β → γ) :
    (l.flatMap f).map g = l.flatMap (fun x => (f x).map g) := by
  induction l with
  | nil => rfl
  | cons a t ih => rw [List.flatMap_cons, List.flatMap_cons, List.map_append, ih]

theorem enumFrom_filter_length {α : Type} (pb : α → Bool) (l : List α) :
    ∀ n, ((List.enumFrom n l).filter (fun q => pb q.2)).length = (l.filter pb).length := by
  induction l with
  | nil => intro n; rfl
  | cons a t ih =>
    intro n
    by_cases hp : pb a = true
    · simp [List.enumFrom_cons, List.filter_cons, hp, ih]
    · simp [List.enumFrom_cons, List.filter_cons, hp, ih]

theorem append_ne_of_underscore (c sfx t : String) (hu : '_' ∈ sfx.data)
    (ht : '_' ∉ t.data) : c ++ sfx ≠ t := by
  intro he
  apply ht
  rw [← he]
  show '_' ∈ c.data ++ sfx.data
  exact List.mem_append.mpr (Or.inr hu)

theorem append_ne_of_length_lt (c sfx t : String) (h : t.length < sfx.length) :
    c ++ sfx ≠ t := by
  intro he
  have h2 : (c ++ sfx).length = t.length := by rw [he]
  rw [String.length_append] at h2
  omega

theorem suffix_ite_preimage (P : Prop) [Decidable P] (c sfx n : String)
    (hu : '_' ∈ sfx.data) (hn : '_' ∉ n.data)
    (he : (if P then c ++ sfx else c) = n) : c = n := by
  by_cases h : P
  · rw [if_pos h] at he
    exact absurd he (append_ne_of_underscore c sfx n hu hn)
  · rwa [if_neg h] at he

theorem not_mem_keys_renameBy (f : String → String) (r : Row G) (n : String)
    (h : ∀ c, f c = n → c = n) (hn : n ∉ r.map Prod.fst) :
    n ∉ (renameBy f r).map Prod.fst := by
  intro hm
  rw [renameBy, List.map_map] at hm
  obtain ⟨q, hq, hq2⟩ := List.mem_map.mp hm
  exact hn ((h q.1 hq2) ▸ List.mem_map_of_mem Prod.fst hq)

theorem lookupVal_renameBy (f : String → String) (r : Row G) (n : String)
    (h : ∀ q ∈ r, (f q.1 == n) = (q.1 == n)) :
    lookupVal (renameBy f r) n = lookupVal r n := by
  induction r with
  | nil => rfl
  | cons q t ih =>
    rw [renameBy, List.map_cons]
    by_cases hq : q.1 == n
    · have h1 : ((f q.1 == n) = true) := by rw [h q (List.mem_cons_self q t)]; exact hq
      rw [lookupVal_cons_eq _ _ _ h1, lookupVal_cons_eq _ _ _ hq]
    · have h1 : ¬ ((f q.1 == n) = true) := by rw [h q (List.mem_cons_self q t)]; exact hq
      rw [lookupVal_cons_ne _ _ _ h1, lookupVal_cons_ne _ _ _ hq]
      exact ih (fun q2 hq2 => h q2 (List.mem_cons_of_mem q hq2))

theorem lrow_no_zoning (z : Frame G) (lr : Row G) (hlr : "zoning" ∉ lr.map Prod.fst) :
    "zoning" ∉ (renameBy (sjoinLeftRename z.cols) lr).map Prod.fst := by
  refine not_mem_keys_renameBy _ _ _ (fun c hc => ?_) hlr
  exact suffix_ite_preimage _ c "_left" "zoning" (by decide) (by decide)
    (by rwa [sjoinLeftRename] at hc)

theorem spatialContrib_empty (m z : Frame G) (inter : G → G → Bool) (lr : Row G)
    (hms : z.rows.enum.filter (fun q => geomInter inter lr q.2) = []) :
    spatialContrib m z inter lr =
      [dropRowKey
        (renameBy (sjoinLeftRename z.cols) lr ++
          (z.cols.filter (fun c => c != "geometry")).map
            (fun c => (if c ∈ m.cols then c ++ "_right" else c, Value.null)) ++
          [("index_right", Value.null)])
        "index_right"] := by
  rw [spatialContrib]
  simp only [sjoinContrib, hms, List.isEmpty_nil, if_true, List.map_cons, List.map_nil]

theorem spatialContrib_nonempty (m z : Frame G) (inter : G → G → Bool) (lr : Row G)
    (hms : ¬ (z.rows.enum.filter (fun q => geomInter inter lr q.2)).isEmpty = true) :
    spatialContrib m z inter lr =
      (z.rows.enum.filter (fun q => geomInter inter lr q.2)).map (spatialMatchRow m z lr) := by
  rw [spatialContrib]
  simp only [sjoinContrib, if_neg hms, List.map_map]
  rfl

theorem zoning_null_row (m z : Frame G) (lr : Row G)
    (hlr : "zoning" ∉ lr.map Prod.fst) :
    lookupVal
      (dropRowKey
        (renameBy (sjoinLeftRename z.cols) lr ++
          (z.cols.filter (fun c => c != "geometry")).map
            (fun c => (if c ∈ m.cols then c ++ "_right" else c, Value.null)) ++
          [("index_right", Value.null)])
        "index_right") "zoning" = Value.null := by
  rw [dropRowKey, lookupVal_filter_preserve _ _ _ (fun q hq => by rw [hq]; decide)]
  rw [List.append_assoc, lookupVal_append_left_none _ _ _ (lrow_no_zoning z lr hlr)]
  apply lookupVal_all_null
  intro q hq
  rcases List.mem_append.mp hq with h1 | h1
  · obtain ⟨c, _, rfl⟩ := List.mem_map.mp h1
    rfl
  · rw [List.mem_singleton.mp h1]

theorem zoning_match_row (m z : Frame G) (lr : Row G) (q : Nat × Row G)
    (hlr : "zoning" ∉ lr.map Prod.fst) (hm : "zoning" ∉ m.cols) :
    lookupVal (spatialMatchRow m z lr q) "zoning" = lookupVal q.2 "zoning" := by
  rw [spatialMatchRow, dropRowKey,
    lookupVal_filter_preserve _ _ _ (fun p hp => by rw [hp]; decide)]
  rw [List.append_assoc, lookupVal_append_left_none _ _ _ (lrow_no_zoning z lr hlr)]
  rw [lookupVal_append_right_none _ _ _ (by simp)]
  rw [lookupVal_renameBy]
  · exact lookupVal_filter_preserve q.2 _ "zoning" (fun p hp => by rw [hp]; decide)
  · intro q2 _
    by_cases hqm : q2.1 ∈ m.cols
    · rw [if_pos hqm]
      have h1 : (q2.1 ++ "_right" == "zoning") = false := by
        simp only [beq_eq_false_iff_ne]
        exact append_ne_of_underscore q2.1 "_right" "zoning" (by decide) (by decide)
      have h2 : (q2.1 == "zoning") = false := by
        simp only [beq_eq_false_iff_ne]
        intro he
        exact hm (he ▸ hqm)
      rw [h1, h2]
    · rw [if_neg hqm]

/- ------------------------------------------------------------------
   Claim theorem: C2
   ------------------------------------------------------------------ -/

/-- C2: the spatial stage emits, per parcel row, exactly k rows when the
parcel's geometry intersects k > 0 zoning polygons (each carrying that
polygon's zoning value) and exactly one null-zoning row when it intersects
none. -/
theorem spatial_join_multiplicity (m z : Frame G) (inter : G → G → Bool)
    (hz : "zoning" ∈ z.cols) :
    (spatialStage m z inter).rows = m.rows.flatMap (spatialContrib m z inter) ∧
    ∀ lr : Row G,
      (spatialContrib m z inter lr).length = max 1 (intersCount z inter lr) ∧
      (intersCount z inter lr = 0 → "zoning" ∉ lr.map Prod.fst →
        ∀ r0 ∈ spatialContrib m z inter lr, lookupVal r0 "zoning" = Value.null) ∧
      (intersCount z inter lr ≠ 0 →
        spatialContrib m z inter lr =
          (z.rows.enum.filter (fun q => geomInter inter lr q.2)).map
            (spatialMatchRow m z lr) ∧
        ("zoning" ∉ lr.map Prod.fst → "zoning" ∉ m.cols →
          ∀ q ∈ z.rows.enum.filter (fun q => geomInter inter lr q.2),
            lookupVal (spatialMatchRow m z lr q) "zoning" = lookupVal q.2 "zoning")) := by
  have hlen : ∀ lr : Row G,
      (z.rows.enum.filter (fun q => geomInter inter lr q.2)).length
        = intersCount z inter lr := by
    intro lr
    show ((List.enumFrom 0 z.rows).filter (fun q => geomInter inter lr q.2)).length = _
    exact enumFrom_filter_length (geomInter inter lr) z.rows 0
  constructor
  · rw [spatialStage, if_pos hz]
    show ((m.rows.flatMap (sjoinContrib m z inter)).map
      (fun r => dropRowKey r "index_right")) = _
    rw [map_flatMap_comm]
    rfl
  intro lr
  refine ⟨?_, ?_, ?_⟩
  · by_cases he : (z.rows.enum.filter (fun q => geomInter inter lr q.2)).isEmpty = true
    · have hms := List.isEmpty_iff.mp he
      have h0 : intersCount z inter lr = 0 := by
        rw [← hlen lr, hms]
        rfl
      rw [spatialContrib_empty m z inter lr hms, h0]
      rfl
    · rw [spatialContrib_nonempty m z inter lr he, List.length_map, hlen lr]
      have hpos : intersCount z inter lr ≠ 0 := by
        rw [← hlen lr]
        intro hcc
        exact he (by rw [List.length_eq_zero.mp hcc]; rfl)
      rw [Nat.max_eq_right (by omega)]
  · intro h0 hlr r0 hr0
    have hms : z.rows.enum.filter (fun q => geomInter inter lr q.2) = [] := by
      rw [← List.length_eq_zero, hlen lr]
      exact h0
    rw [spatialContrib_empty m z inter lr hms] at hr0
    have hr0e := List.mem_singleton.mp hr0
    rw [hr0e]
    exact zoning_null_row m z lr hlr
  · intro hpos
    have he : ¬ (z.rows.enum.filter (fun q => geomInter inter lr q.2)).isEmpty = true := by
      intro he2
      exact hpos (by rw [← hlen lr, List.isEmpty_iff.mp he2]; rfl)
    refine ⟨spatialContrib_nonempty m z inter lr he, ?_⟩
    intro hlr hm q _
    exact zoning_match_row m z lr q hlr hm

/-- C2 witness: with two zoning polygons both intersecting parcel 001's
geometry, that parcel yields two rows; parcel 002 intersects nothing and
yields rows with null zoning. -/
theorem spatial_join_witness :
    (spatialContrib wParcels wZoning (fun a b => a == b)
        [("parcel_id", Value.str "001"), ("geometry", Value.geom 1)]).length = 2 ∧
    ∀ r0 ∈ spatialContrib wParcels wZoning (fun a b => a == b)
        [("parcel_id", Value.str "002"), ("geometry", Value.geom 2)],
      lookupVal r0 "zoning" = Value.null := by
  constructor
  · have h := ((spatial_join_multiplicity wParcels wZoning (fun a b => a == b)
      (by decide)).2 [("parcel_id", Value.str "001"), ("geometry", Value.geom 1)]).1
    rw [h]
    decide
  · exact ((spatial_join_multiplicity wParcels wZoning (fun a b => a == b)
      (by decide)).2 [("parcel_id", Value.str "002"), ("geometry", Value.geom 2)]).2.1
      (by decide) (by decide)

/- ------------------------------------------------------------------
   Finalizer idempotence helper lemmas
   ------------------------------------------------------------------ -/

theorem requiredColumns_nodup : requiredColumns.Nodup := by decide

theorem dedupByAux_eq_self {α : Type} (key : α → String) (l : List α) :
    ∀ seen : List String, (∀ a ∈ l, key a ∉ seen) → (l.map key).Nodup →
      dedupByAux key seen l = l := by
  induction l with
  | nil => intro seen _ _; rfl
  | cons p rest ih =>
    intro seen hseen hnd
    rw [List.map_cons, List.nodup_cons] at hnd
    rw [dedupByAux, if_neg (hseen p (List.mem_cons_self p rest))]
    rw [ih (key p :: seen) ?_ hnd.2]
    intro a ha hmem
    rcases List.mem_cons.mp hmem with h1 | h1
    · exact hnd.1 (h1 ▸ List.mem_map_of_mem key ha)
    · exact hseen a (List.mem_cons_of_mem p ha) h1

theorem dedupBy_eq_self {α : Type} (key : α → String) (l : List α)
    (hnd : (l.map key).Nodup) : dedupBy key l = l :=
  dedupByAux_eq_self key l [] (by simp) hnd

theorem keys_projectRow (names : List String) (r : Row G) :
    (projectRow names r).map Prod.fst =
      names.filter (fun n => (r.find? (fun p => p.1 == n)).isSome) := by
  induction names with
  | nil => rfl
  | cons n ns ih =>
    rw [projectRow, List.filterMap_cons, List.filter_cons]
    cases hf : r.find? (fun p => p.1 == n) with
    | none =>
      simp only [Option.map_none', Option.isSome_none, Bool.false_eq_true, if_false]
      exact ih
    | some p =>
      simp only [Option.map_some', Option.isSome_some, if_true, List.map_cons]
      exact congrArg (List.cons n) ih

theorem availableColumns_nodup (cols : List String) : (availableColumns cols).Nodup :=
  requiredColumns_nodup.filter _

theorem availableColumns_idem (cols : List String) :
    availableColumns (availableColumns cols) = availableColumns cols := by
  have hded : dedupBy id (availableColumns cols) = availableColumns cols := by
    refine dedupBy_eq_self id _ ?_
    rw [List.map_id]
    exact availableColumns_nodup cols
  rw [availableColumns, hded]
  refine List.filter_congr ?_
  intro c hc
  rw [decide_eq_decide]
  rw [availableColumns, List.mem_filter]
  constructor
  · intro h2
    exact of_decide_eq_true h2.2
  · intro h2
    exact ⟨hc, decide_eq_true h2⟩

theorem fillVal_fillVal (n : String) (v : Value G) :
    fillVal n (fillVal n v) = fillVal n v := by
  by_cases hc : ((n == "zoning" || n == "land_use") && decide (v = Value.null)) = true
  · have h1 : fillVal n v = Value.str "Unknown" := by rw [fillVal, if_pos hc]
    rw [h1, fillVal, if_neg (by simp)]
  · have h1 : fillVal n v = v := by rw [fillVal, if_neg hc]
    rw [h1]
    exact h1

theorem fillRow_fillRow (r : Row G) : fillRow (fillRow r) = fillRow r := by
  rw [fillRow, fillRow, List.map_map]
  refine List.map_congr_left ?_
  intro p _
  show (p.1, fillVal p.1 (fillVal p.1 p.2)) = (p.1, fillVal p.1 p.2)
  rw [fillVal_fillVal]

theorem mem_filterMap_shape (g : String → Option (Value G)) (ns : List String) :
    ∀ e ∈ ns.filterMap (fun n => (g n).map (fun v => (n, v))), e.1 ∈ ns := by
  intro e he
  obtain ⟨n, hn, hFn⟩ := List.mem_filterMap.mp he
  cases hg : g n with
  | none => rw [hg] at hFn; cases hFn
  | some v =>
    rw [hg] at hFn
    rw [Option.map_some'] at hFn
    obtain rfl := Option.some.inj hFn
    exact hn

theorem projectRow_skip_head (ns : List String) (e : String × Value G) (r : Row G)
    (h : ∀ m ∈ ns, (e.1 == m) = false) : projectRow ns (e :: r) = projectRow ns r := by
  induction ns with
  | nil => rfl
  | cons m ms ih =>
    rw [projectRow, projectRow, List.filterMap_cons, List.filterMap_cons]
    have hfind : (e :: r).find? (fun p => p.1 == m) = r.find? (fun p => p.1 == m) := by
      have he : (e.1 == m) = false := h m (List.mem_cons_self m ms)
      rw [List.find?]
      rw [he]
    rw [hfind]
    have ihr := ih (fun m2 hm2 => h m2 (List.mem_cons_of_mem m hm2))
    rw [projectRow, projectRow] at ihr
    rw [ihr]

theorem projectRow_of_shape (names : List String) (g : String → Option (Value G))
    (hnd : names.Nodup) :
    projectRow names (names.filterMap (fun n => (g n).map (fun v => (n, v)))) =
      names.filterMap (fun n => (g n).map (fun v => (n, v))) := by
  induction names with
  | nil => rfl
  | cons n ns ih =>
    rw [List.nodup_cons] at hnd
    rw [List.filterMap_cons]
    cases hg : g n with
    | none =>
      rw [Option.map_none']
      rw [projectRow, List.filterMap_cons]
      have hfind : (ns.filterMap (fun n => (g n).map (fun v => (n, v)))).find?
          (fun p => p.1 == n) = none := by
        rw [List.find?_eq_none]
        intro e he
        have h1 := mem_filterMap_shape g ns e he
        simp only [beq_iff_eq]
        intro h2
        exact hnd.1 (h2 ▸ h1)
      rw [hfind, Option.map_none']
      exact ih hnd.2
    | some v =>
      rw [Option.map_some']
      rw [projectRow, List.filterMap_cons]
      have hfind : (((n, v) : String × Value G) ::
          ns.filterMap (fun n => (g n).map (fun v => (n, v)))).find?
          (fun p => p.1 == n) = some (n, v) := by
        rw [List.find?]
        have : (((n, v) : String × Value G).1 == n) = true := by simp
        rw [this]
      rw [hfind, Option.map_some']
      have hskip : projectRow ns
          (((n, v) : String × Value G) ::
            ns.filterMap (fun n => (g n).map (fun v => (n, v)))) =
          projectRow ns (ns.filterMap (fun n => (g n).map (fun v => (n, v)))) := by
        refine projectRow_skip_head ns (n, v) _ ?_
        intro m hm
        simp only [beq_eq_false_iff_ne]
        intro h2
        exact hnd.1 (h2 ▸ hm)
      show ((n, v) : String × Value G) :: projectRow ns _ = _
      rw [hskip, ih hnd.2]

theorem fill_project_shape (names : List String) (r : Row G) :
    fillRow (projectRow names r) =
      names.filterMap (fun n =>
        ((r.find? (fun p => p.1 == n)).map (fun p => fillVal n p.2)).map
          (fun v => (n, v))) := by
  rw [fillRow, projectRow, List.map_filterMap]
  refine List.filterMap_congr ?_
  intro n _
  cases hf : r.find? (fun p => p.1 == n) with
  | none => rfl
  | some p => rfl

/- ------------------------------------------------------------------
   Claim theorem: C7
   ------------------------------------------------------------------ -/

theorem finalizeRow_idem (cols : List String) (r : Row G) :
    finalizeRow (availableColumns cols) (finalizeRow cols r) = finalizeRow cols r := by
  have hk : ((finalizeRow cols r).map Prod.fst).Nodup := by
    rw [finalizeRow, keys_fillRow, keys_projectRow]
    exact (availableColumns_nodup cols).filter _
  have hproj : projectRow (availableColumns cols) (finalizeRow cols r) =
      finalizeRow cols r := by
    rw [finalizeRow, fill_project_shape]
    exact projectRow_of_shape (availableColumns cols) _ (availableColumns_nodup cols)
  rw [finalizeRow, availableColumns_idem, dedupBy_eq_self Prod.fst _ hk, hproj]
  show fillRow (finalizeRow cols r) = finalizeRow cols r
  rw [finalizeRow, fillRow_fillRow]

/-- C7: the Schema Finalizer is idempotent — applying duplicate-column drop,
canonical projection and sentinel fill a second time changes neither the
columns nor the rows. -/
theorem finalizer_idempotent (fr : Frame G) :
    finalizeFrame (finalizeFrame fr) = finalizeFrame fr := by
  rw [finalizeFrame, finalizeFrame]
  rw [Frame.mk.injEq]
  constructor
  · exact availableColumns_idem fr.cols
  · show (fr.rows.map (finalizeRow fr.cols)).map (finalizeRow (availableColumns fr.cols)) = _
    rw [List.map_map]
    refine List.map_congr_left ?_
    intro r _
    exact finalizeRow_idem fr.cols r

/- ------------------------------------------------------------------
   Pipeline composition helper lemmas
   ------------------------------------------------------------------ -/

theorem flatMap_pure {α : Type} (l : List α) : l.flatMap (fun a => [a]) = l := by
  induction l with
  | nil => rfl
  | cons a t ih => rw [List.flatMap_cons, ih]; rfl

theorem flatMap_flatMap {α β γ : Type} (l : List α) (f : α → List β) (g : β → List γ) :
    (l.flatMap f).flatMap g = l.flatMap (fun x => (f x).flatMap g) := by
  induction l with
  | nil => rfl
  | cons a t ih =>
    rw [List.flatMap_cons, List.flatMap_cons, List.flatMap_append, ih]

theorem spatialStage_rows_if (m z : Frame G) (inter : G → G → Bool) :
    (spatialStage m z inter).rows = m.rows.flatMap
      (fun r => if "zoning" ∈ z.cols then spatialContrib m z inter r else [r]) := by
  by_cases hz : "zoning" ∈ z.cols
  · simp only [if_pos hz]
    rw [spatialStage, if_pos hz]
    show ((m.rows.flatMap (sjoinContrib m z inter)).map
      (fun r => dropRowKey r "index_right")) = _
    rw [map_flatMap_comm]
    rfl
  · simp only [if_neg hz]
    rw [spatialStage, if_neg hz, flatMap_pure]

theorem attrStage_rows_if (p lu : Frame G) :
    (attrStage p lu).rows = p.rows.flatMap
      (fun lr => if "parcel_id" ∈ p.cols ∧ "mapblklot" ∈ lu.cols then
        (mergeContrib p lu "parcel_id" "mapblklot" "_land_use" lr).map
          (fun r => dropRowKey r "mapblklot")
      else [lr]) := by
  by_cases hc : "parcel_id" ∈ p.cols ∧ "mapblklot" ∈ lu.cols
  · simp only [if_pos hc]
    rw [attrStage, if_pos hc]
    show ((p.rows.flatMap (mergeContrib p lu "parcel_id" "mapblklot" "_land_use")).map
      (fun r => dropRowKey r "mapblklot")) = _
    rw [map_flatMap_comm]
  · simp only [if_neg hc]
    rw [attrStage, if_neg hc, flatMap_pure]

theorem lookupVal_fillRow (r : Row G) (n : String)
    (hn : (n == "zoning" || n == "land_use") = false) :
    lookupVal (fillRow r) n = lookupVal r n := by
  induction r with
  | nil => rfl
  | cons q t ih =>
    rw [fillRow, List.map_cons]
    by_cases hq : (q.1 == n) = true
    · have hq2 : q.1 = n := by simpa using hq
      rw [lookupVal_cons_eq (q.1, fillVal q.1 q.2) _ n hq, lookupVal_cons_eq q t n hq]
      show fillVal q.1 q.2 = q.2
      rw [hq2, fillVal, if_neg (by simp [hn])]
    · rw [lookupVal_cons_ne (q.1, fillVal q.1 q.2) _ n hq, lookupVal_cons_ne q t n hq]
      exact ih

theorem lookupVal_projectRow_mem (names : List String) (r : Row G) (n : String)
    (hnd : names.Nodup) (hmem : n ∈ names) :
    lookupVal (projectRow names r) n = lookupVal r n := by
  induction names with
  | nil => cases hmem
  | cons m ns ih =>
    rw [List.nodup_cons] at hnd
    rw [projectRow, List.filterMap_cons]
    by_cases hmn : m = n
    · subst hmn
      cases hf : r.find? (fun p => p.1 == m) with
      | some p =>
        rw [Option.map_some', lookupVal_cons_eq _ _ _ (by simp)]
        rw [lookupVal, hf]
      | none =>
        rw [Option.map_none']
        have hnull : lookupVal (projectRow ns r) m = Value.null := by
          refine lookupVal_not_mem _ _ ?_
          intro hmm
          exact hnd.1 (keys_projectRow_subset ns r m hmm)
        show lookupVal (projectRow ns r) m = lookupVal r m
        rw [hnull, lookupVal, hf]
    · have hn2 : n ∈ ns := by
        rcases List.mem_cons.mp hmem with h | h
        · exact absurd h.symm hmn
        · exact h
      cases hf : r.find? (fun p => p.1 == m) with
      | some p =>
        rw [Option.map_some',
          lookupVal_cons_ne _ _ _ (by simp only [beq_iff_eq]; exact hmn)]
        show lookupVal (projectRow ns r) n = lookupVal r n
        exact ih hnd.2 hn2
      | none =>
        rw [Option.map_none']
        show lookupVal (projectRow ns r) n = lookupVal r n
        exact ih hnd.2 hn2

theorem lookupVal_dedupByAux (r : Row G) : ∀ (seen : List String) (n : String),
    n ∉ seen → lookupVal (dedupByAux Prod.fst seen r) n = lookupVal r n := by
  induction r with
  | nil => intro seen n _; rfl
  | cons q t ih =>
    intro seen n hn
    rw [dedupByAux]
    by_cases hq : q.1 ∈ seen
    · rw [if_pos hq]
      have hqn : ¬ (q.1 == n) = true := by
        simp only [beq_iff_eq]
        intro he
        exact hn (he ▸ hq)
      rw [ih seen n hn, lookupVal_cons_ne _ _ _ hqn]
    · rw [if_neg hq]
      by_cases hqn : (q.1 == n) = true
      · rw [lookupVal_cons_eq _ _ _ hqn, lookupVal_cons_eq _ _ _ hqn]
      · rw [lookupVal_cons_ne _ _ _ hqn, lookupVal_cons_ne _ _ _ hqn]
        refine ih _ n ?_
        intro hmem
        rcases List.mem_cons.mp hmem with h | h
        · exact hqn (by simp [h])
        · exact hn h

theorem lookupVal_dedupBy (r : Row G) (n : String) :
    lookupVal (dedupBy Prod.fst r) n = lookupVal r n :=
  lookupVal_dedupByAux r [] n (by simp)

theorem stepA_geometry (p lu : Frame G) (hg : "geometry" ∈ p.cols) (lr r1 : Row G)
    (h1 : r1 ∈ (if "parcel_id" ∈ p.cols ∧ "mapblklot" ∈ lu.cols then
        (mergeContrib p lu "parcel_id" "mapblklot" "_land_use" lr).map
          (fun r => dropRowKey r "mapblklot")
      else [lr])) :
    lookupVal r1 "geometry" = lookupVal lr "geometry" := by
  by_cases hc : "parcel_id" ∈ p.cols ∧ "mapblklot" ∈ lu.cols
  · rw [if_pos hc] at h1
    obtain ⟨x, hx, rfl⟩ := List.mem_map.mp h1
    have hsfx : ∀ c, suffixIf p.cols "_land_use" c ≠ "geometry" := by
      intro c
      rw [suffixIf]
      by_cases hcp : c ∈ p.cols
      · rw [if_pos hcp]
        exact append_ne_of_length_lt c "_land_use" "geometry" (by decide)
      · rw [if_neg hcp]
        intro he
        exact hcp (he ▸ hg)
    have hxt : ∃ t : Row G, x = lr ++ t ∧ "geometry" ∉ t.map Prod.fst := by
      simp only [mergeContrib] at hx
      by_cases he : (lu.rows.filter (fun rr =>
          keyMatch (lookupVal lr "parcel_id") (lookupVal rr "mapblklot"))).isEmpty = true
      · rw [if_pos he] at hx
        refine ⟨_, List.mem_singleton.mp hx, ?_⟩
        intro hm
        obtain ⟨q, hq, hq2⟩ := List.mem_map.mp hm
        obtain ⟨c, _, rfl⟩ := List.mem_map.mp hq
        exact hsfx c hq2
      · rw [if_neg he] at hx
        obtain ⟨rr, _, rfl⟩ := List.mem_map.mp hx
        refine ⟨_, rfl, ?_⟩
        intro hm
        obtain ⟨q, hq, hq2⟩ := List.mem_map.mp hm
        rw [renameBy] at hq
        obtain ⟨q0, _, rfl⟩ := List.mem_map.mp hq
        exact hsfx q0.1 hq2
    obtain ⟨t, rfl, ht⟩ := hxt
    rw [dropRowKey, lookupVal_filter_preserve _ _ _ (fun q hq => by rw [hq]; decide)]
    exact lookupVal_append_right_none lr t "geometry" ht
  · rw [if_neg hc] at h1
    rw [List.mem_singleton.mp h1]

theorem stepB_geometry (m z : Frame G) (inter : G → G → Bool) (r1 r2 : Row G)
    (h12 : r2 ∈ (if "zoning" ∈ z.cols then spatialContrib m z inter r1 else [r1])) :
    lookupVal r2 "geometry" = lookupVal r1 "geometry" := by
  by_cases hz : "zoning" ∈ z.cols
  · rw [if_pos hz, spatialContrib] at h12
    obtain ⟨x, hx, rfl⟩ := List.mem_map.mp h12
    have hlrename : lookupVal (renameBy (sjoinLeftRename z.cols) r1) "geometry" =
        lookupVal r1 "geometry" := by
      refine lookupVal_renameBy _ _ _ ?_
      intro q _
      rw [sjoinLeftRename]
      by_cases hq : q.1 ∈ z.cols.filter (fun c2 => c2 != "geometry")
      · rw [if_pos hq]
        have h1 : (q.1 ++ "_left" == "geometry") = false := by
          simp only [beq_eq_false_iff_ne]
          exact append_ne_of_underscore q.1 "_left" "geometry" (by decide) (by decide)
        have h2 : (q.1 == "geometry") = false := by
          simp only [beq_eq_false_iff_ne]
          intro he
          rw [he] at hq
          have h3 := (List.mem_filter.mp hq).2
          simp at h3
        rw [h1, h2]
      · rw [if_neg hq]
    have hxshape : ∃ t : Row G, x = renameBy (sjoinLeftRename z.cols) r1 ++ t ∧
        "geometry" ∉ t.map Prod.fst := by
      simp only [sjoinContrib] at hx
      by_cases he : (z.rows.enum.filter (fun q => geomInter inter r1 q.2)).isEmpty = true
      · rw [if_pos he] at hx
        have hxe := List.mem_singleton.mp hx
        subst hxe
        refine ⟨_, List.append_assoc _ _ _, ?_⟩
        intro hm
        rw [List.map_append, List.mem_append] at hm
        rcases hm with hm | hm
        · obtain ⟨q, hq, hq2⟩ := List.mem_map.mp hm
          obtain ⟨c, hcm, rfl⟩ := List.mem_map.mp hq
          revert hq2
          show (if c ∈ m.cols then c ++ "_right" else c, (Value.null : Value G)).1 =
            "geometry" → False
          intro hq2
          have hcg := suffix_ite_preimage (c ∈ m.cols) c "_right" "geometry"
            (by decide) (by decide) hq2
          rw [hcg] at hcm
          have h3 := (List.mem_filter.mp hcm).2
          simp at h3
        · simp at hm
      · rw [if_neg he] at hx
        obtain ⟨q, _, rfl⟩ := List.mem_map.mp hx
        refine ⟨_, List.append_assoc _ _ _, ?_⟩
        intro hm
        rw [List.map_append, List.mem_append] at hm
        rcases hm with hm | hm
        · obtain ⟨e, hqe, hq2⟩ := List.mem_map.mp hm
          rw [renameBy] at hqe
          obtain ⟨q0, hq0, rfl⟩ := List.mem_map.mp hqe
          have hcg := suffix_ite_preimage (q0.1 ∈ m.cols) q0.1 "_right" "geometry"
            (by decide) (by decide) hq2
          have h3 := (List.mem_filter.mp hq0).2
          rw [hcg] at h3
          simp at h3
        · simp at hm
    obtain ⟨t, hxe, ht⟩ := hxshape
    rw [dropRowKey, lookupVal_filter_preserve _ _ _ (fun q hq => by rw [hq]; decide), hxe,
      lookupVal_append_right_none _ t "geometry" ht, hlrename]
  · rw [if_neg hz] at h12
    rw [List.mem_singleton.mp h12]

theorem stepC_geometry (cols : List String) (r : Row G)
    (hmem : "geometry" ∈ availableColumns cols) :
    lookupVal (finalizeRow cols r) "geometry" = lookupVal r "geometry" := by
  rw [finalizeRow, lookupVal_fillRow _ _ (by decide),
    lookupVal_projectRow_mem _ _ _ (availableColumns_nodup cols) hmem,
    lookupVal_dedupBy]

theorem geometry_mem_availableColumns (p lu z : Frame G) (inter : G → G → Bool)
    (hg : "geometry" ∈ p.cols) :
    "geometry" ∈ availableColumns (spatialStage (attrStage p lu) z inter).cols := by
  have hM : "geometry" ∈ (attrStage p lu).cols := by
    by_cases hc : "parcel_id" ∈ p.cols ∧ "mapblklot" ∈ lu.cols
    · rw [attrStage, if_pos hc]
      show "geometry" ∈ ((p.cols ++ lu.cols.map (suffixIf p.cols "_land_use")).filter
        (fun c => c != "mapblklot"))
      rw [List.mem_filter]
      exact ⟨List.mem_append.mpr (Or.inl hg), by decide⟩
    · rw [attrStage, if_neg hc]
      exact hg
  have hS : "geometry" ∈ (spatialStage (attrStage p lu) z inter).cols := by
    by_cases hz : "zoning" ∈ z.cols
    · rw [spatialStage, if_pos hz]
      show "geometry" ∈ (((attrStage p lu).cols.map (sjoinLeftRename z.cols) ++
        sjoinRightCols (attrStage p lu).cols z.cols ++ ["index_right"]).filter
        (fun c => c != "index_right"))
      rw [List.mem_filter]
      refine ⟨?_, by decide⟩
      refine List.mem_append.mpr (Or.inl (List.mem_append.mpr (Or.inl ?_)))
      refine List.mem_map.mpr ⟨"geometry", hM, ?_⟩
      rw [sjoinLeftRename, if_neg]
      intro hmem
      have h3 := (List.mem_filter.mp hmem).2
      simp at h3
    · rw [spatialStage, if_neg hz]
      exact hM
  rw [availableColumns, List.mem_filter]
  exact ⟨by decide, decide_eq_true (mem_dedupId _ _ hS)⟩

/- ------------------------------------------------------------------
   Claim theorem: C8
   ------------------------------------------------------------------ -/

/-- C8: every final output row derives from exactly one input parcel row, and
its geometry field equals that parcel's geometry — neither join nor the
finalizer ever replaces a parcel's geometry with a joined record's geometry. -/
theorem geometry_never_replaced (p lu z : Frame G) (inter : G → G → Bool)
    (hg : "geometry" ∈ p.cols) :
    (pipelineFrame p lu z inter).rows = p.rows.flatMap (perParcelRows p lu z inter) ∧
    ∀ lr ∈ p.rows, ∀ out ∈ perParcelRows p lu z inter lr,
      lookupVal out "geometry" = lookupVal lr "geometry" := by
  constructor
  · rw [pipelineFrame]
    show ((spatialStage (attrStage p lu) z inter).rows.map
      (finalizeRow (spatialStage (attrStage p lu) z inter).cols)) = _
    rw [spatialStage_rows_if, attrStage_rows_if, flatMap_flatMap, map_flatMap_comm]
    rfl
  · intro lr _ out hout
    simp only [perParcelRows] at hout
    obtain ⟨r2, h2, rfl⟩ := List.mem_map.mp hout
    obtain ⟨r1, h1, h12⟩ := List.mem_flatMap.mp h2
    rw [stepC_geometry _ _ (geometry_mem_availableColumns p lu z inter hg),
      stepB_geometry (attrStage p lu) z inter r1 r2 h12,
      stepA_geometry p lu hg lr r1 h1]

/-- C8 witness: on the concrete frames the pipeline rows decompose per parcel
and parcel 001's output rows keep its geometry. -/
theorem geometry_witness :
    (pipelineFrame wParcels wLandUse wZoning (fun a b => a == b)).rows =
      wParcels.rows.flatMap (perParcelRows wParcels wLandUse wZoning (fun a b => a == b)) ∧
    ∀ out ∈ perParcelRows wParcels wLandUse wZoning (fun a b => a == b)
        [("parcel_id", Value.str "001"), ("geometry", Value.geom 1)],
      lookupVal out "geometry" =
        lookupVal [("parcel_id", Value.str "001"), ("geometry", Value.geom 1)] "geometry" :=
  ⟨(geometry_never_replaced wParcels wLandUse wZoning (fun a b => a == b) (by decide)).1,
   (geometry_never_replaced wParcels wLandUse wZoning (fun a b => a == b) (by decide)).2
     [("parcel_id", Value.str "001"), ("geometry", Value.geom 1)] (by decide)⟩

end SfParcel
